import Mathlib

/-!
Shallow embedding of the recommendation microservices repository
(`client_service.py` and `recommendation_service.py`) and verification of
claims about its specification.

Modelling conventions:
- Machine floats become rationals (`ℚ`); the similarity values relevant to
  the claims are exact dot products (`sklearn.metrics.pairwise.linear_kernel`).
- `numpy.argsort` is modelled as the sort of the index range by the
  lexicographic key (value, index): for a deterministic stable argsort this
  is exactly the produced permutation.
- Python exceptions become `Except` / explicit outcome constructors; an
  exception a handler does not catch propagates as an `uncaught` outcome.
- The TF-IDF vectorizer (`sklearn.TfidfVectorizer`) is an external library
  call; it is modelled as an arbitrary function `vec : String → List ℚ`
  from a combined-feature string to its feature vector, applied row-wise,
  which is faithful for every claim considered (none depends on the
  numeric TF-IDF weights).
-/

set_option maxHeartbeats 1000000

namespace RecSys

/-- One row of the interaction feed CSV
(`user_id;...;product_id;category;product_name;...;tags`); the columns the
recommendation service never reads (name, age, gender, location,
preferences, description) are omitted. -/
structure Row where
  user_id : Int
  product_id : Int
  category : String
  product_name : String
  tags : String
deriving DecidableEq, Repr

/-- `user_data["combined_features"] = user_data["category"] + " " + user_data["tags"]`. -/
def combinedFeatures (r : Row) : String :=
  r.category ++ " " ++ r.tags

/-- First-occurrence deduplication with an accumulator of already-seen
elements: the order produced by `pandas.Series.unique`. -/
def dedupFirstAux : List String → List String → List String
  | [], _ => []
  | x :: xs, seen =>
    if x ∈ seen then dedupFirstAux xs seen
    else x :: dedupFirstAux xs (x :: seen)

/-- `user_data["combined_features"].unique()`. -/
def uniqueFeatures (rows : List Row) : List String :=
  dedupFirstAux (rows.map combinedFeatures) []

/-- The dict comprehension
`{row["combined_features"]: row["product_id"] for index, row in user_data.iterrows()}`:
iterate all rows, later rows overwriting earlier bindings of the same key. -/
def product_mapping (rows : List Row) : String → Option Int :=
  rows.foldl (fun m r => fun s => if s = combinedFeatures r then some r.product_id else m s)
    (fun _ => none)

/-- Dot product of two feature vectors. -/
def dot (u v : List ℚ) : ℚ :=
  (List.zipWith (fun a b => a * b) u v).sum

/-- `linear_kernel(user_profile, tfidf_matrix)`: one similarity per matrix
row (the code's `similarities` has shape 1×N; this is its single row). -/
def linear_kernel (u : List ℚ) (M : List (List ℚ)) : List ℚ :=
  M.map (dot u)

/-- The order on indices realised by a stable ascending `argsort` of the
score list `s`: lexicographic on (score, index). -/
def argRel (s : List ℚ) (i j : Nat) : Prop :=
  s.getD i 0 < s.getD j 0 ∨ (s.getD i 0 = s.getD j 0 ∧ i ≤ j)

instance argRelDecidable (s : List ℚ) : DecidableRel (argRel s) := fun i j => by
  unfold argRel; exact inferInstance

instance argRelTotal (s : List ℚ) : IsTotal Nat (argRel s) where
  total i j := by
    unfold argRel
    rcases lt_trichotomy (s.getD i 0) (s.getD j 0) with h | h | h
    · exact Or.inl (Or.inl h)
    · rcases Nat.le_total i j with hij | hij
      · exact Or.inl (Or.inr ⟨h, hij⟩)
      · exact Or.inr (Or.inr ⟨h.symm, hij⟩)
    · exact Or.inr (Or.inl h)

instance argRelTrans (s : List ℚ) : IsTrans Nat (argRel s) where
  trans i j k hij hjk := by
    unfold argRel at *
    rcases hij with h1 | ⟨e1, l1⟩
    · rcases hjk with h2 | ⟨e2, _⟩
      · exact Or.inl (h1.trans h2)
      · exact Or.inl (e2 ▸ h1)
    · rcases hjk with h2 | ⟨e2, l2⟩
      · exact Or.inl (e1 ▸ h2)
      · exact Or.inr ⟨e1.trans e2, l1.trans l2⟩

/-- `similarities.argsort()[0]`: the indices `0, ..., n-1` sorted ascending
by score, ties by original index (stable). -/
def argsort (s : List ℚ) : List Nat :=
  (List.range s.length).insertionSort (argRel s)

/-- Python slice `xs[start:]` (negative `start` counts from the end). -/
def pySliceFrom (start : Int) (xs : List α) : List α :=
  if start < 0 then xs.drop (xs.length - (-start).toNat)
  else xs.drop start.toNat

/-- `similarities.argsort()[0][-top_recommendations:][::-1]`. -/
def similarIndices (s : List ℚ) (top : Int) : List Nat :=
  (pySliceFrom (-top) (argsort s)).reverse

/-- The entries of the response's `recommendations` list:
`{"id": ..., "name": ...}`. -/
structure RecEntry where
  id : Int
  name : String
deriving DecidableEq, Repr

/-- Python exceptions that can escape the modelled code. -/
inductive PyErr where
  /-- `redis.RedisError` from the key-value store client. -/
  | redisError
  /-- `ZeroDivisionError` from `mean(axis=0)` over zero rows. -/
  | zeroDivisionError
  /-- `ValueError` from `TfidfVectorizer.fit_transform` on an empty corpus. -/
  | valueError
  /-- `KeyError` from a dict lookup / `IndexError` from array indexing. -/
  | keyError
deriving DecidableEq, Repr

/-- The list comprehension building `recommended_products`: for each chosen
index, look up the feature string and its product id; a failing lookup is a
raised `KeyError`/`IndexError`, modelled as `none`. -/
def buildRecs (features : List String) (mapping : String → Option Int) :
    List Nat → Option (List RecEntry)
  | [] => some []
  | i :: is =>
    match features[i]? with
    | none => none
    | some f =>
      match mapping f with
      | none => none
      | some p =>
        match buildRecs features mapping is with
        | none => none
        | some rest => some (⟨p, f⟩ :: rest)

/-- `recommend_content_based(user_profile, tfidf_matrix, top_recommendations,
unique_combined_features, product_mapping)`. -/
def recommend_content_based (user_profile : List ℚ) (tfidf_matrix : List (List ℚ))
    (top_recommendations : Int) (unique_combined_features : List String)
    (mapping : String → Option Int) : Option (List RecEntry) :=
  buildRecs unique_combined_features mapping
    (similarIndices (linear_kernel user_profile tfidf_matrix) top_recommendations)

/-- Vector sum (`numpy` elementwise `+` on equal-length rows). -/
def addVec (u v : List ℚ) : List ℚ :=
  List.zipWith (fun a b => a + b) u v

/-- `user_features.mean(axis=0)` for a nonempty stack of rows. -/
def meanVecs (v : List ℚ) (rest : List (List ℚ)) : List ℚ :=
  (rest.foldl addVec v).map (fun a => a / ((rest.length + 1 : Nat) : ℚ))

/-- `create_user_profile(user_id, user_data, tfidf_vectorizer)`: select the
user's rows, vectorize, and take the elementwise mean; with zero matching
rows `mean(axis=0)` evaluates `1.0 / 0` and raises `ZeroDivisionError`. -/
def create_user_profile (vec : String → List ℚ) (user_id : Int) (rows : List Row) :
    Except PyErr (List ℚ) :=
  match (rows.filter (fun r => decide (r.user_id = user_id))).map (fun r => vec (combinedFeatures r)) with
  | [] => .error .zeroDivisionError
  | v :: rest => .ok (meanVecs v rest)

/-- The response model `RecommendationResponse`. -/
structure Response where
  user_id : Int
  recommendations : List RecEntry
deriving DecidableEq, Repr

/-- The `/recommend/{user_id}` endpoint `content_recommend(user_id,
top_recommendations)`: derive combined features, fit the vectorizer over the
unique feature strings (raising on an empty corpus), build the
feature-to-product mapping, build the user profile, rank, and shape the
response. -/
def content_recommend (vec : String → List ℚ) (rows : List Row)
    (user_id : Int) (top_recommendations : Int) : Except PyErr Response :=
  if uniqueFeatures rows = [] then .error .valueError
  else
    match create_user_profile vec user_id rows with
    | .error e => .error e
    | .ok user_profile =>
      match recommend_content_based user_profile ((uniqueFeatures rows).map vec)
          top_recommendations (uniqueFeatures rows) (product_mapping rows) with
      | none => .error .keyError
      | some recs => .ok ⟨user_id, recs⟩

/-! ### The client service (cache-aside layer) -/

/-- `cache_key = f"user_recommendations:\x7buser_id\x7d"` — a function of the
user id only. -/
def cacheKey (user_id : Int) : String :=
  "user_recommendations:" ++ toString user_id

/-- The TTL passed to `redis_client.setex` (3600 seconds). -/
def cacheTTL : Nat := 3600

/-- The FastAPI default for the `num_recommendations` query parameter. -/
def num_recommendations_default : Int := 5

/-- The key-value store contents: newest binding first (the deserialized
form of the stored JSON value). -/
abbrev Store := List (String × Response)

/-- `redis_client.setex(key, ttl, value)`: bind `key` to `value`. -/
def setexStore (st : Store) (key : String) (ttl : Nat) (v : Response) : Store :=
  (key, v) :: st

/-- The key-value store together with fault flags: whether the next read or
write raises `redis.RedisError`. -/
structure KV where
  data : Store
  readFails : Bool
  writeFails : Bool

/-- What `client.get(...)` + `raise_for_status()` against the
recommendation service can yield. -/
inductive UpstreamResult where
  /-- 2xx with a response body. -/
  | ok (r : Response)
  /-- `raise_for_status` raised `httpx.HTTPStatusError` with this status. -/
  | errorStatus (code : Nat)
deriving DecidableEq, Repr

/-- How a request to the client service's endpoint terminates. -/
inductive ClientOutcome where
  /-- A normal `RecommendationResponse` is returned. -/
  | success (r : Response)
  /-- `HTTPException(status_code=code)` is raised by the handler. -/
  | httpException (code : Nat)
  /-- An exception no handler catches propagates out of the endpoint. -/
  | uncaught (e : PyErr)
deriving DecidableEq, Repr

/-- Whether the outcome is a success response. -/
def ClientOutcome.isSuccess : ClientOutcome → Bool
  | .success _ => true
  | _ => false

/-- The `/recommendations/{user_id}` endpoint `get_recommendations(user_id,
num_recommendations=5)`: read the cache (a store error propagates uncaught);
on a hit return the cached value; on a miss call the recommendation service
(`HTTPStatusError` is re-raised as `HTTPException`), `setex` the result
(a store error again propagates uncaught, since only `httpx.HTTPStatusError`
is handled), and return it. -/
def get_recommendations (kv : KV) (compute : Int → Int → UpstreamResult)
    (user_id : Int) (num_recommendations : Int) : ClientOutcome × KV :=
  if kv.readFails then (.uncaught .redisError, kv)
  else
    match kv.data.lookup (cacheKey user_id) with
    | some cached => (.success cached, kv)
    | none =>
      match compute user_id num_recommendations with
      | .errorStatus code => (.httpException code, kv)
      | .ok r =>
        if kv.writeFails then (.uncaught .redisError, kv)
        else (.success r, { kv with data := setexStore kv.data (cacheKey user_id) cacheTTL r })

/-- The recommendation service as the client's upstream: a successful
computation is a 2xx JSON body; an exception escaping `content_recommend`
makes FastAPI answer 500, which `raise_for_status` turns into an
`HTTPStatusError` with code 500. -/
def serviceCompute (vec : String → List ℚ) (rows : List Row) :
    Int → Int → UpstreamResult := fun user_id top =>
  match content_recommend vec rows user_id top with
  | .ok r => .ok r
  | .error _ => .errorStatus 500

/-! ### Concrete fixture: a small interaction feed -/

/-- Interaction row: user 1 bought product 10 ("Dune", category "books", tags "scifi"). -/
def rowC1 : Row := ⟨1, 10, "books", "Dune", "scifi"⟩

/-- Interaction row: user 1 bought product 20 ("Lego", category "toys", tags "kids"). -/
def rowC2 : Row := ⟨1, 20, "toys", "Lego", "kids"⟩

/-- Interaction row: user 2 bought product 30 ("Vinyl", category "music", tags "rock"). -/
def rowC3 : Row := ⟨2, 30, "music", "Vinyl", "rock"⟩

/-- A three-row interaction table with three distinct combined-feature strings. -/
def rowsC : List Row := [rowC1, rowC2, rowC3]

/-- A row sharing `rowC1`'s combined-feature string "books scifi" but with a
different product id and name. -/
def rowDup : Row := ⟨2, 99, "books", "Dune Deluxe", "scifi"⟩

/-- A table in which two rows share one combined-feature string. -/
def rowsDup : List Row := [rowC1, rowDup]

/-- A concrete stand-in for the fitted vectorizer: every feature string maps
to the empty vector, so every similarity score is the empty dot product 0
(every pair of candidates ties). -/
def vecC : String → List ℚ := fun _ => []

/-- A concrete feature-to-product mapping over two feature strings. -/
def mapAB : String → Option Int := fun s =>
  if s = "a" then some 1 else if s = "b" then some 2 else none

/-- An empty, healthy key-value store. -/
def kvEmpty : KV := ⟨[], false, false⟩

/-- A store whose next read raises `redis.RedisError`. -/
def kvReadErr : KV := ⟨[], true, false⟩

/-- A healthy-read store whose next write raises `redis.RedisError`. -/
def kvWriteErr : KV := ⟨[], false, true⟩

/-! ### Helper lemmas -/

theorem mem_dedupFirstAux {l seen : List String} {f : String}
    (h : f ∈ dedupFirstAux l seen) : f ∈ l := by
  induction l generalizing seen with
  | nil => simp [dedupFirstAux] at h
  | cons x xs ih =>
    simp only [dedupFirstAux] at h
    split at h
    · exact List.mem_cons_of_mem _ (ih h)
    · rcases List.mem_cons.mp h with rfl | h
      · exact List.mem_cons_self _ _
      · exact List.mem_cons_of_mem _ (ih h)

theorem mem_uniqueFeatures {rows : List Row} {f : String}
    (h : f ∈ uniqueFeatures rows) : f ∈ rows.map combinedFeatures :=
  mem_dedupFirstAux h

theorem uniqueFeatures_ne_nil {rows : List Row} (h : rows ≠ []) :
    uniqueFeatures rows ≠ [] := by
  cases rows with
  | nil => exact absurd rfl h
  | cons r rs => simp [uniqueFeatures, dedupFirstAux]

theorem product_mapping_concat (rows : List Row) (r : Row) (s : String) :
    product_mapping (rows ++ [r]) s =
      if s = combinedFeatures r then some r.product_id else product_mapping rows s := by
  unfold product_mapping
  rw [List.foldl_append]
  rfl

theorem product_mapping_eq_getLast (rows : List Row) (s : String) :
    product_mapping rows s =
      ((rows.filter (fun r => decide (combinedFeatures r = s))).getLast?).map
        (fun r => r.product_id) := by
  induction rows using List.reverseRecOn with
  | nil => rfl
  | append_singleton rs r ih =>
    rw [product_mapping_concat, List.filter_append]
    by_cases h : s = combinedFeatures r
    · simp [h, List.getLast?_concat]
    · have h2 : ¬ (combinedFeatures r = s) := fun e => h e.symm
      simp [h, h2, ih]

theorem product_mapping_isSome {rows : List Row} {f : String}
    (h : f ∈ rows.map combinedFeatures) : (product_mapping rows f).isSome := by
  rw [product_mapping_eq_getLast]
  rcases List.mem_map.mp h with ⟨r, hr, rfl⟩
  have hmem : r ∈ rows.filter (fun x => decide (combinedFeatures x = combinedFeatures r)) :=
    List.mem_filter.mpr ⟨hr, by simp⟩
  rw [Option.isSome_map']
  exact List.getLast?_isSome.mpr (List.ne_nil_of_mem hmem)

theorem buildRecs_ok {features : List String} {mapping : String → Option Int}
    {idxs : List Nat} (hbound : ∀ i ∈ idxs, i < features.length)
    (hcov : ∀ f ∈ features, (mapping f).isSome) :
    ∃ l, buildRecs features mapping idxs = some l ∧ l.length = idxs.length := by
  induction idxs with
  | nil => exact ⟨[], rfl, rfl⟩
  | cons i is ih =>
    have hi : i < features.length := hbound i (List.mem_cons_self _ _)
    have hf : features[i]? = some features[i] := List.getElem?_eq_getElem hi
    obtain ⟨p, hp⟩ := Option.isSome_iff_exists.mp
      (hcov features[i] (List.getElem_mem hi))
    obtain ⟨rest, hrest, hlen⟩ := ih (fun j hj => hbound j (List.mem_cons_of_mem _ hj))
    refine ⟨⟨p, features[i]⟩ :: rest, ?_, by simp [hlen]⟩
    simp only [buildRecs, hf, hp, hrest]

theorem buildRecs_mem {features : List String} {mapping : String → Option Int} :
    ∀ {idxs : List Nat} {l : List RecEntry}, buildRecs features mapping idxs = some l →
    ∀ e ∈ l, ∃ i ∈ idxs, features[i]? = some e.name ∧ mapping e.name = some e.id := by
  intro idxs
  induction idxs with
  | nil =>
    intro l h e he
    simp only [buildRecs] at h
    cases h
    simp at he
  | cons i is ih =>
    intro l h e he
    cases hf : features[i]? with
    | none => simp only [buildRecs, hf] at h; exact Option.noConfusion h
    | some f =>
      cases hp : mapping f with
      | none => simp only [buildRecs, hf, hp] at h; exact Option.noConfusion h
      | some p =>
        cases hr : buildRecs features mapping is with
        | none => simp only [buildRecs, hf, hp, hr] at h; exact Option.noConfusion h
        | some rest =>
          simp only [buildRecs, hf, hp, hr, Option.some.injEq] at h
          subst h
          rcases List.mem_cons.mp he with rfl | he2
          · exact ⟨i, List.mem_cons_self _ _, hf, hp⟩
          · obtain ⟨j, hj, h1, h2⟩ := ih hr e he2
            exact ⟨j, List.mem_cons_of_mem _ hj, h1, h2⟩

theorem argsort_perm (s : List ℚ) : (argsort s).Perm (List.range s.length) :=
  List.perm_insertionSort _ _

theorem argsort_sorted (s : List ℚ) : (argsort s).Pairwise (argRel s) :=
  List.sorted_insertionSort _ _

theorem argsort_nodup (s : List ℚ) : (argsort s).Nodup :=
  (List.nodup_range _).perm (argsort_perm s).symm

theorem mem_argsort_lt {s : List ℚ} {i : Nat} (h : i ∈ argsort s) : i < s.length :=
  List.mem_range.mp ((argsort_perm s).mem_iff.mp h)

theorem argsort_length (s : List ℚ) : (argsort s).length = s.length := by
  rw [(argsort_perm s).length_eq, List.length_range]

theorem pySliceFrom_sublist (start : Int) (xs : List α) :
    (pySliceFrom start xs).Sublist xs := by
  unfold pySliceFrom
  split
  · exact List.drop_sublist _ _
  · exact List.drop_sublist _ _

theorem pySliceFrom_length_neg {K : Int} (hK : 0 < K) (xs : List α) :
    (pySliceFrom (-K) xs).length = min K.toNat xs.length := by
  unfold pySliceFrom
  rw [if_pos (show -K < 0 by omega), List.length_drop]
  have h2 : (-(-K)).toNat = K.toNat := by omega
  rw [h2]
  omega

theorem pySliceFrom_length_nonpos {K : Int} (hK : K ≤ 0) (xs : List α) :
    (pySliceFrom (-K) xs).length = xs.length - (-K).toNat := by
  unfold pySliceFrom
  rw [if_neg (show ¬ (-K < 0) by omega), List.length_drop]

theorem mem_similarIndices_lt {s : List ℚ} {K : Int} {i : Nat}
    (h : i ∈ similarIndices s K) : i < s.length := by
  unfold similarIndices at h
  rw [List.mem_reverse] at h
  exact mem_argsort_lt ((pySliceFrom_sublist _ _).subset h)

theorem similarIndices_length_pos {K : Int} (hK : 0 < K) (s : List ℚ) :
    (similarIndices s K).length = min K.toNat s.length := by
  unfold similarIndices
  rw [List.length_reverse, pySliceFrom_length_neg hK, argsort_length]

theorem similarIndices_length_nonpos {K : Int} (hK : K ≤ 0) (s : List ℚ) :
    (similarIndices s K).length = s.length - (-K).toNat := by
  unfold similarIndices
  rw [List.length_reverse, pySliceFrom_length_nonpos hK, argsort_length]

theorem similarIndices_pairwise (s : List ℚ) (K : Int) :
    (similarIndices s K).Pairwise
      (fun i j => s.getD j 0 < s.getD i 0 ∨ (s.getD i 0 = s.getD j 0 ∧ j < i)) := by
  have hsorted : (pySliceFrom (-K) (argsort s)).Pairwise (argRel s) :=
    List.Pairwise.sublist (pySliceFrom_sublist _ _) (argsort_sorted s)
  have hnd : (pySliceFrom (-K) (argsort s)).Nodup :=
    List.Nodup.sublist (pySliceFrom_sublist _ _) (argsort_nodup s)
  unfold similarIndices
  rw [List.pairwise_reverse]
  refine (hsorted.and hnd).imp (fun {a b} h => ?_)
  obtain ⟨hr, hne⟩ := h
  unfold argRel at hr
  rcases hr with hlt | ⟨heq, hle⟩
  · exact Or.inl hlt
  · exact Or.inr ⟨heq.symm, lt_of_le_of_ne hle hne⟩

theorem recommend_content_based_ok {u : List ℚ} {M : List (List ℚ)} {K : Int}
    {features : List String} {mapping : String → Option Int}
    (hlen : features.length = M.length)
    (hcov : ∀ f ∈ features, (mapping f).isSome) (hK : 0 < K) :
    ∃ l, recommend_content_based u M K features mapping = some l ∧
      l.length = min K.toNat M.length := by
  have hklen : (linear_kernel u M).length = M.length := by simp [linear_kernel]
  have hb : ∀ i ∈ similarIndices (linear_kernel u M) K, i < features.length := by
    intro i hi
    have := mem_similarIndices_lt hi
    omega
  obtain ⟨l, hl, hlen2⟩ := buildRecs_ok hb hcov
  refine ⟨l, hl, ?_⟩
  rw [hlen2, similarIndices_length_pos hK, hklen]

theorem recommend_content_based_nonpos {u : List ℚ} {M : List (List ℚ)} {K : Int}
    {features : List String} {mapping : String → Option Int}
    (hlen : features.length = M.length)
    (hcov : ∀ f ∈ features, (mapping f).isSome) (hK : K ≤ 0) :
    ∃ l, recommend_content_based u M K features mapping = some l ∧
      l.length = M.length - (-K).toNat := by
  have hklen : (linear_kernel u M).length = M.length := by simp [linear_kernel]
  have hb : ∀ i ∈ similarIndices (linear_kernel u M) K, i < features.length := by
    intro i hi
    have := mem_similarIndices_lt hi
    omega
  obtain ⟨l, hl, hlen2⟩ := buildRecs_ok hb hcov
  refine ⟨l, hl, ?_⟩
  rw [hlen2, similarIndices_length_nonpos hK, hklen]

theorem create_user_profile_ok {vec : String → List ℚ} {user_id : Int} {rows : List Row}
    (hu : rows.filter (fun r => decide (r.user_id = user_id)) ≠ []) :
    ∃ p, create_user_profile vec user_id rows = .ok p := by
  unfold create_user_profile
  cases h : rows.filter (fun r => decide (r.user_id = user_id)) with
  | nil => exact absurd h hu
  | cons a l => exact ⟨_, rfl⟩

theorem create_user_profile_cold {vec : String → List ℚ} {user_id : Int} {rows : List Row}
    (hu : rows.filter (fun r => decide (r.user_id = user_id)) = []) :
    create_user_profile vec user_id rows = .error .zeroDivisionError := by
  unfold create_user_profile
  rw [hu]
  rfl

theorem uniqueFeatures_cov {rows : List Row} :
    ∀ f ∈ uniqueFeatures rows, (product_mapping rows f).isSome :=
  fun _ hf => product_mapping_isSome (mem_uniqueFeatures hf)

theorem content_recommend_ok {vec : String → List ℚ} {rows : List Row} {user_id K : Int}
    (hu : rows.filter (fun r => decide (r.user_id = user_id)) ≠ [])
    (hK : 0 < K) :
    ∃ resp, content_recommend vec rows user_id K = .ok resp ∧
      resp.user_id = user_id ∧
      resp.recommendations.length = min K.toNat (uniqueFeatures rows).length := by
  have hrne : rows ≠ [] := by
    intro h
    rw [h] at hu
    exact hu rfl
  have hfne : uniqueFeatures rows ≠ [] := uniqueFeatures_ne_nil hrne
  unfold content_recommend
  rw [if_neg hfne]
  obtain ⟨p, hp⟩ := @create_user_profile_ok vec user_id rows hu
  obtain ⟨l, hl, hlen⟩ := @recommend_content_based_ok p ((uniqueFeatures rows).map vec) K
    (uniqueFeatures rows) (product_mapping rows) (by simp) uniqueFeatures_cov hK
  simp only [hp, hl]
  exact ⟨_, rfl, rfl, by simpa using hlen⟩

theorem content_recommend_ok_nonpos {vec : String → List ℚ} {rows : List Row}
    {user_id K : Int}
    (hu : rows.filter (fun r => decide (r.user_id = user_id)) ≠ [])
    (hK : K ≤ 0) :
    ∃ resp, content_recommend vec rows user_id K = .ok resp ∧
      resp.user_id = user_id ∧
      resp.recommendations.length = (uniqueFeatures rows).length - (-K).toNat := by
  have hrne : rows ≠ [] := by
    intro h
    rw [h] at hu
    exact hu rfl
  have hfne : uniqueFeatures rows ≠ [] := uniqueFeatures_ne_nil hrne
  unfold content_recommend
  rw [if_neg hfne]
  obtain ⟨p, hp⟩ := @create_user_profile_ok vec user_id rows hu
  obtain ⟨l, hl, hlen⟩ := @recommend_content_based_nonpos p ((uniqueFeatures rows).map vec) K
    (uniqueFeatures rows) (product_mapping rows) (by simp) uniqueFeatures_cov hK
  simp only [hp, hl]
  exact ⟨_, rfl, rfl, by simpa using hlen⟩

theorem content_recommend_cold {vec : String → List ℚ} {rows : List Row} {user_id K : Int}
    (hu : rows.filter (fun r => decide (r.user_id = user_id)) = [])
    (hfne : uniqueFeatures rows ≠ []) :
    content_recommend vec rows user_id K = .error .zeroDivisionError := by
  unfold content_recommend
  rw [if_neg hfne, create_user_profile_cold hu]

theorem content_recommend_recs_spec {vec : String → List ℚ} {rows : List Row}
    {user_id K : Int} {resp : Response}
    (h : content_recommend vec rows user_id K = .ok resp) :
    ∀ e ∈ resp.recommendations,
      e.name ∈ rows.map combinedFeatures ∧ product_mapping rows e.name = some e.id := by
  unfold content_recommend at h
  by_cases hfe : uniqueFeatures rows = []
  · rw [if_pos hfe] at h
    cases h
  · rw [if_neg hfe] at h
    cases hp : create_user_profile vec user_id rows with
    | error e => simp only [hp] at h; exact Except.noConfusion h
    | ok p =>
      cases hrec : recommend_content_based p ((uniqueFeatures rows).map vec) K
          (uniqueFeatures rows) (product_mapping rows) with
      | none => simp only [hp, hrec] at h; exact Except.noConfusion h
      | some recs =>
        simp only [hp, hrec, Except.ok.injEq] at h
        subst h
        intro e he
        obtain ⟨i, _, hname, hid⟩ := buildRecs_mem hrec e he
        exact ⟨mem_uniqueFeatures (List.getElem?_mem hname), hid⟩

theorem client_read_err {kv : KV} (compute : Int → Int → UpstreamResult)
    {user_id n : Int} (hr : kv.readFails = true) :
    (get_recommendations kv compute user_id n).fst = .uncaught .redisError := by
  simp [get_recommendations, hr]

theorem client_miss_ok {kv : KV} {compute : Int → Int → UpstreamResult}
    {user_id n : Int} {r : Response}
    (hr : kv.readFails = false) (hmiss : kv.data.lookup (cacheKey user_id) = none)
    (hok : compute user_id n = .ok r) (hw : kv.writeFails = false) :
    get_recommendations kv compute user_id n =
      (.success r, ⟨setexStore kv.data (cacheKey user_id) cacheTTL r, kv.readFails, kv.writeFails⟩) := by
  simp only [get_recommendations, hr, hmiss, hok, hw, Bool.false_eq_true, if_false]

theorem client_miss_write_err {kv : KV} {compute : Int → Int → UpstreamResult}
    {user_id n : Int} {r : Response}
    (hr : kv.readFails = false) (hmiss : kv.data.lookup (cacheKey user_id) = none)
    (hok : compute user_id n = .ok r) (hw : kv.writeFails = true) :
    (get_recommendations kv compute user_id n).fst = .uncaught .redisError := by
  simp [get_recommendations, hr, hmiss, hok, hw]

theorem client_miss_http_err {kv : KV} {compute : Int → Int → UpstreamResult}
    {user_id n : Int} {code : Nat}
    (hr : kv.readFails = false) (hmiss : kv.data.lookup (cacheKey user_id) = none)
    (herr : compute user_id n = .errorStatus code) :
    (get_recommendations kv compute user_id n).fst = .httpException code := by
  simp [get_recommendations, hr, hmiss, herr]

/-! ### Claim theorems -/

/-- Claim C1, counterexample: with the recommendation service healthy but the
key-value store's read raising `redis.RedisError`, the request to the
recommendation-cache endpoint does not degrade to direct computation: the
store error propagates uncaught (no success response is returned). -/
theorem spec_c1_counterexample :
    (get_recommendations kvReadErr (serviceCompute vecC rowsC) 1 5).fst
      = .uncaught .redisError ∧
    ((get_recommendations kvReadErr (serviceCompute vecC rowsC) 1 5).fst).isSuccess
      = false := by
  decide

/-- Claim C1 (amended): a key-value-store error is not recovered by the
recommendation-cache endpoint. If the cache read raises, or if the read
misses, the computation succeeds and the cache write raises, the
`redis.RedisError` propagates out of the handler uncaught (only
`httpx.HTTPStatusError` is caught), so the request fails instead of
returning the computed recommendations. -/
theorem spec_c1_theorem (kv : KV) (compute : Int → Int → UpstreamResult)
    (user_id n : Int) (r : Response)
    (h : kv.readFails = true ∨
      (kv.readFails = false ∧ kv.data.lookup (cacheKey user_id) = none ∧
        compute user_id n = .ok r ∧ kv.writeFails = true)) :
    (get_recommendations kv compute user_id n).fst = .uncaught .redisError := by
  rcases h with hr | ⟨hr, hmiss, hok, hw⟩
  · exact client_read_err compute hr
  · exact client_miss_write_err hr hmiss hok hw

/-- Witness for C1 at a concrete input: a failing cache write on a miss,
with the upstream computation succeeding. -/
theorem spec_c1_witness :
    kvWriteErr.readFails = false ∧
    kvWriteErr.data.lookup (cacheKey 1) = none ∧
    serviceCompute vecC rowsC 1 2
      = .ok ⟨1, [⟨30, "music rock"⟩, ⟨20, "toys kids"⟩]⟩ ∧
    kvWriteErr.writeFails = true ∧
    (get_recommendations kvWriteErr (serviceCompute vecC rowsC) 1 2).fst
      = .uncaught .redisError :=
  ⟨rfl, rfl, rfl, rfl,
    spec_c1_theorem kvWriteErr (serviceCompute vecC rowsC) 1 2
      ⟨1, [⟨30, "music rock"⟩, ⟨20, "toys kids"⟩]⟩ (Or.inr ⟨rfl, rfl, rfl, rfl⟩)⟩

/-- Claim C2, counterexample: user 3 has zero rows in `rowsC`, yet the
recommendation request does not return an empty recommendation list: it
raises an uncaught `ZeroDivisionError` (surfacing as a server error). -/
theorem spec_c2_counterexample :
    content_recommend vecC rowsC 3 5 = .error .zeroDivisionError ∧
    (Except.error PyErr.zeroDivisionError : Except PyErr Response)
      ≠ .ok ⟨3, []⟩ :=
  ⟨rfl, fun h => Except.noConfusion h⟩

/-- Claim C2 (amended): for every interaction table with a nonempty
candidate corpus and every user id with zero matching rows, the
recommendation computation raises `ZeroDivisionError` (the profile mean
divides by the number of matching rows), so the request fails with a server
error instead of returning an empty recommendation list. -/
theorem spec_c2_theorem (vec : String → List ℚ) (rows : List Row) (user_id K : Int)
    (hu : rows.filter (fun r => decide (r.user_id = user_id)) = [])
    (hne : uniqueFeatures rows ≠ []) :
    content_recommend vec rows user_id K = .error .zeroDivisionError :=
  content_recommend_cold hu hne

/-- Witness for C2: user 3 is absent from `rowsC`. -/
theorem spec_c2_witness :
    rowsC.filter (fun r => decide (r.user_id = 3)) = [] ∧
    uniqueFeatures rowsC ≠ [] ∧
    content_recommend vecC rowsC 3 7 = .error .zeroDivisionError :=
  ⟨by decide, by decide, spec_c2_theorem vecC rowsC 3 7 (by decide) (by decide)⟩

/-- Claim C3, counterexample: a cache-miss request with requested count 0 is
not answered with min(0, N) = 0 recommendations: the slice `[-0:]` keeps the
whole candidate list, so all N = 3 candidates come back. -/
theorem spec_c3_counterexample :
    (get_recommendations kvEmpty (serviceCompute vecC rowsC) 1 0).fst
      = .success ⟨1, [⟨30, "music rock"⟩, ⟨20, "toys kids"⟩, ⟨10, "books scifi"⟩]⟩ ∧
    ¬ ((3 : Nat) = min (Int.toNat 0) (uniqueFeatures rowsC).length) := by
  decide

/-- Claim C3 (amended): for every cache-miss request with a positive
requested count n, n is forwarded to the recommendation computation and the
returned success response carries min(n, N) recommendations, N being the
number of unique combined-feature candidates; the count defaults to 5 when
omitted. (For n = 0 the response carries all N candidates instead, see the
counterexample.) -/
theorem spec_c3_theorem (vec : String → List ℚ) (rows : List Row) (kv : KV)
    (user_id n : Int)
    (hr : kv.readFails = false) (hw : kv.writeFails = false)
    (hmiss : kv.data.lookup (cacheKey user_id) = none)
    (hu : rows.filter (fun r => decide (r.user_id = user_id)) ≠ [])
    (hn : 0 < n) :
    num_recommendations_default = 5 ∧
    ∃ resp, (get_recommendations kv (serviceCompute vec rows) user_id n).fst
        = .success resp ∧
      resp.recommendations.length = min n.toNat (uniqueFeatures rows).length := by
  refine ⟨rfl, ?_⟩
  obtain ⟨resp, hok, _, hlen⟩ := @content_recommend_ok vec rows user_id n hu hn
  have hcomp : serviceCompute vec rows user_id n = .ok resp := by
    unfold serviceCompute
    rw [hok]
  refine ⟨resp, ?_, hlen⟩
  rw [client_miss_ok hr hmiss hcomp hw]

/-- Witness for C3 at a concrete input: user 1, count 2, three candidates. -/
theorem spec_c3_witness :
    kvEmpty.readFails = false ∧ kvEmpty.writeFails = false ∧
    kvEmpty.data.lookup (cacheKey 1) = none ∧
    rowsC.filter (fun r => decide (r.user_id = 1)) ≠ [] ∧ (0 : Int) < 2 ∧
    (num_recommendations_default = 5 ∧
      ∃ resp, (get_recommendations kvEmpty (serviceCompute vecC rowsC) 1 2).fst
          = .success resp ∧
        resp.recommendations.length = min (Int.toNat 2) (uniqueFeatures rowsC).length) :=
  ⟨rfl, rfl, rfl, by decide, by decide,
    spec_c3_theorem vecC rowsC kvEmpty 1 2 rfl rfl rfl (by decide) (by decide)⟩

/-- Claim C4, counterexample: with K = 0 (so K ≤ 0) and a nonempty candidate
matrix, the Ranker does not return an empty sequence: the Python slice
`[-0:]` is the whole list, so every row comes back (in descending score
order). -/
theorem spec_c4_counterexample :
    recommend_content_based [] [[], []] 0 ["a", "b"] mapAB
      = some [⟨2, "b"⟩, ⟨1, "a"⟩] ∧
    recommend_content_based [] [[], []] 0 ["a", "b"] mapAB ≠ some [] := by
  decide

/-- Claim C4 (amended): for K ≤ 0 the Ranker does not return an empty
sequence; the slice `[-K:]` drops the |K| lowest-scoring rows, so the result
has N - |K| entries (all N rows when K = 0). -/
theorem spec_c4_theorem (u : List ℚ) (M : List (List ℚ)) (K : Int)
    (features : List String) (mapping : String → Option Int)
    (hlen : features.length = M.length)
    (hcov : ∀ f ∈ features, (mapping f).isSome)
    (hK : K ≤ 0) :
    ∃ l, recommend_content_based u M K features mapping = some l ∧
      l.length = M.length - (-K).toNat :=
  recommend_content_based_nonpos hlen hcov hK

/-- Witness for C4: K = -1 over two candidate rows yields one entry. -/
theorem spec_c4_witness :
    (["a", "b"] : List String).length = ([[], []] : List (List ℚ)).length ∧
    (∀ f ∈ ["a", "b"], (mapAB f).isSome) ∧ (-1 : Int) ≤ 0 ∧
    ∃ l, recommend_content_based [] [[], []] (-1) ["a", "b"] mapAB = some l ∧
      l.length = ([[], []] : List (List ℚ)).length - (Int.toNat (-(-1))) :=
  ⟨rfl, by decide, by decide,
    spec_c4_theorem [] [[], []] (-1) ["a", "b"] mapAB rfl (by decide) (by decide)⟩

/-- Claim C5, counterexample: two candidate rows with exactly equal
similarity scores (`linear_kernel` gives [0, 0]) are returned in reverse of
their original row order, not in original order: the code ascending-sorts
and then reverses, which flips ties. -/
theorem spec_c5_counterexample :
    linear_kernel [] [[], []] = [0, 0] ∧
    recommend_content_based [] [[], []] 2 ["a", "b"] mapAB
      = some [⟨2, "b"⟩, ⟨1, "a"⟩] ∧
    recommend_content_based [] [[], []] 2 ["a", "b"] mapAB
      ≠ some [⟨1, "a"⟩, ⟨2, "b"⟩] := by
  decide

/-- Claim C5 (amended): the returned recommendations are ordered descending
by similarity score, but two candidate rows with exactly equal scores appear
in reverse of their original row order (the stable ascending argsort is
reversed): the chosen index sequence is strictly decreasing on ties, and the
Ranker's output is exactly the entries built over that index sequence. -/
theorem spec_c5_theorem (user_profile : List ℚ) (tfidf_matrix : List (List ℚ))
    (top : Int) (features : List String) (mapping : String → Option Int) :
    (similarIndices (linear_kernel user_profile tfidf_matrix) top).Pairwise
      (fun i j => (linear_kernel user_profile tfidf_matrix).getD j 0
          < (linear_kernel user_profile tfidf_matrix).getD i 0 ∨
        ((linear_kernel user_profile tfidf_matrix).getD i 0
            = (linear_kernel user_profile tfidf_matrix).getD j 0 ∧ j < i)) ∧
    recommend_content_based user_profile tfidf_matrix top features mapping
      = buildRecs features mapping
          (similarIndices (linear_kernel user_profile tfidf_matrix) top) :=
  ⟨similarIndices_pairwise _ _, rfl⟩

/-- Claim C6, counterexample: a request (user 1, count 2) populates the
cache; a following request (user 1, count 5) observes that entry — the
cached two-recommendation response — instead of computing the
five-candidate response, because the cache key ignores the count. -/
theorem spec_c6_counterexample :
    (get_recommendations
        (get_recommendations kvEmpty (serviceCompute vecC rowsC) 1 2).snd
        (serviceCompute vecC rowsC) 1 5).fst
      = .success ⟨1, [⟨30, "music rock"⟩, ⟨20, "toys kids"⟩]⟩ ∧
    serviceCompute vecC rowsC 1 5
      = .ok ⟨1, [⟨30, "music rock"⟩, ⟨20, "toys kids"⟩, ⟨10, "books scifi"⟩]⟩ ∧
    (⟨1, [⟨30, "music rock"⟩, ⟨20, "toys kids"⟩]⟩ : Response)
      ≠ ⟨1, [⟨30, "music rock"⟩, ⟨20, "toys kids"⟩, ⟨10, "books scifi"⟩]⟩ := by
  refine ⟨rfl, rfl, ?_⟩
  decide

/-- Claim C6 (amended): the cache key is a deterministic function of the
user id alone (`user_recommendations:` followed by the id, with no count
component), so identical key parameters observe the same cached value — but
two requests for the same user with different recommendation counts share
one entry: after a miss at count n1 populates the cache, a request at any
count n2 is a hit returning the stored value. -/
theorem spec_c6_theorem (kv : KV) (compute : Int → Int → UpstreamResult)
    (user_id n1 n2 : Int) (r : Response)
    (hr : kv.readFails = false) (hw : kv.writeFails = false)
    (hmiss : kv.data.lookup (cacheKey user_id) = none)
    (hok : compute user_id n1 = .ok r) :
    cacheKey user_id = "user_recommendations:" ++ toString user_id ∧
    (get_recommendations
        (get_recommendations kv compute user_id n1).snd compute user_id n2).fst
      = .success r := by
  refine ⟨rfl, ?_⟩
  rw [client_miss_ok hr hmiss hok hw]
  unfold get_recommendations
  rw [hr]
  simp [setexStore]

/-- Witness for C6: the count-2 entry is served to the count-9 request. -/
theorem spec_c6_witness :
    kvEmpty.readFails = false ∧ kvEmpty.writeFails = false ∧
    kvEmpty.data.lookup (cacheKey 1) = none ∧
    serviceCompute vecC rowsC 1 2
      = .ok ⟨1, [⟨30, "music rock"⟩, ⟨20, "toys kids"⟩]⟩ ∧
    (cacheKey 1 = "user_recommendations:" ++ toString (1 : Int) ∧
      (get_recommendations
          (get_recommendations kvEmpty (serviceCompute vecC rowsC) 1 2).snd
          (serviceCompute vecC rowsC) 1 9).fst
        = .success ⟨1, [⟨30, "music rock"⟩, ⟨20, "toys kids"⟩]⟩) :=
  ⟨rfl, rfl, rfl, rfl,
    spec_c6_theorem kvEmpty (serviceCompute vecC rowsC) 1 2 9
      ⟨1, [⟨30, "music rock"⟩, ⟨20, "toys kids"⟩]⟩ rfl rfl rfl rfl⟩

/-- Claim C7: for a nonempty candidate set of N unique items and K > 0, the
Ranker returns without error a sequence of length min(K, N); in particular
the length never exceeds K nor N, and K > N returns all N rows. -/
theorem spec_c7_theorem (u : List ℚ) (M : List (List ℚ)) (K : Int)
    (features : List String) (mapping : String → Option Int)
    (hlen : features.length = M.length) (hnd : features.Nodup) (hM : M ≠ [])
    (hcov : ∀ f ∈ features, (mapping f).isSome) (hK : 0 < K) :
    ∃ l, recommend_content_based u M K features mapping = some l ∧
      l.length = min K.toNat M.length ∧
      l.length ≤ K.toNat ∧ l.length ≤ M.length := by
  obtain ⟨l, h1, h2⟩ := recommend_content_based_ok hlen hcov hK
  exact ⟨l, h1, h2, by omega, by omega⟩

/-- Witness for C7: K = 5 over two unique candidates yields min(5, 2) = 2
entries. -/
theorem spec_c7_witness :
    (["a", "b"] : List String).length = ([[], []] : List (List ℚ)).length ∧
    (["a", "b"] : List String).Nodup ∧ ([[], []] : List (List ℚ)) ≠ [] ∧
    (∀ f ∈ ["a", "b"], (mapAB f).isSome) ∧ (0 : Int) < 5 ∧
    ∃ l, recommend_content_based [] [[], []] 5 ["a", "b"] mapAB = some l ∧
      l.length = min (Int.toNat 5) ([[], []] : List (List ℚ)).length ∧
      l.length ≤ Int.toNat 5 ∧ l.length ≤ ([[], []] : List (List ℚ)).length :=
  ⟨rfl, by decide, by decide, by decide, by decide,
    spec_c7_theorem [] [[], []] 5 ["a", "b"] mapAB rfl (by decide) (by decide)
      (by decide) (by decide)⟩

/-- Claim C8, counterexample: a request with a negative count (-1) for a
known user returns a success response with N - 1 recommendations — no error
status, because neither endpoint validates the count. -/
theorem spec_c8_counterexample :
    ((get_recommendations kvEmpty (serviceCompute vecC rowsC) 1 (-1)).fst).isSuccess
      = true ∧
    (get_recommendations kvEmpty (serviceCompute vecC rowsC) 1 (-1)).fst
      = .success ⟨1, [⟨30, "music rock"⟩, ⟨20, "toys kids"⟩]⟩ := by
  decide

/-- Claim C8 (amended): no input validation exists. A user id with no
interaction rows makes the recommendation service raise an uncaught
`ZeroDivisionError`, which surfaces through the cache endpoint as a 500
server error (not a client error); a negative count for a known user is
accepted and answered with a success response. -/
theorem spec_c8_theorem (vec : String → List ℚ) (rows : List Row) :
    (∀ kv : KV, ∀ user_id n : Int, kv.readFails = false →
      kv.data.lookup (cacheKey user_id) = none →
      rows.filter (fun r => decide (r.user_id = user_id)) = [] →
      uniqueFeatures rows ≠ [] →
      (get_recommendations kv (serviceCompute vec rows) user_id n).fst
        = .httpException 500) ∧
    (∀ kv : KV, ∀ user_id n : Int, kv.readFails = false → kv.writeFails = false →
      kv.data.lookup (cacheKey user_id) = none →
      rows.filter (fun r => decide (r.user_id = user_id)) ≠ [] → n < 0 →
      ∃ resp, (get_recommendations kv (serviceCompute vec rows) user_id n).fst
        = .success resp) := by
  constructor
  · intro kv user_id n hr hmiss hu hne
    have hcomp : serviceCompute vec rows user_id n = .errorStatus 500 := by
      unfold serviceCompute
      rw [content_recommend_cold hu hne]
    exact client_miss_http_err hr hmiss hcomp
  · intro kv user_id n hr hw hmiss hu hn
    obtain ⟨resp, hok, _, _⟩ := @content_recommend_ok_nonpos vec rows user_id n hu (by omega)
    have hcomp : serviceCompute vec rows user_id n = .ok resp := by
      unfold serviceCompute
      rw [hok]
    exact ⟨resp, by rw [client_miss_ok hr hmiss hcomp hw]⟩

/-- Witness for C8: user 3 (unknown) yields the 500 error; user 1 with
count -1 yields a success response. -/
theorem spec_c8_witness :
    (get_recommendations kvEmpty (serviceCompute vecC rowsC) 3 5).fst
      = .httpException 500 ∧
    ∃ resp, (get_recommendations kvEmpty (serviceCompute vecC rowsC) 1 (-1)).fst
      = .success resp :=
  ⟨(spec_c8_theorem vecC rowsC).1 kvEmpty 3 5 rfl rfl (by decide) (by decide),
    (spec_c8_theorem vecC rowsC).2 kvEmpty 1 (-1) rfl rfl rfl (by decide) (by decide)⟩

/-- Claim C9, counterexample: the item behind product id 10 has
`product_name` "Dune", but the recommendation entry returned for it carries
the combined-feature string "books scifi" as its name. -/
theorem spec_c9_counterexample :
    content_recommend vecC [rowC1] 1 1 = .ok ⟨1, [⟨10, "books scifi"⟩]⟩ ∧
    rowC1.product_id = 10 ∧ rowC1.product_name = "Dune" ∧
    ("books scifi" : String) ≠ "Dune" :=
  ⟨rfl, rfl, rfl, by decide⟩

/-- Claim C9 (amended): every returned recommendation entry pairs the mapped
product id with the item's combined-feature string (category and tags,
space-joined) — not with the item's `product_name`: each entry's name is one
of the table's combined-feature strings and its id is the product id the
feature-to-product mapping assigns to that string. -/
theorem spec_c9_theorem (vec : String → List ℚ) (rows : List Row) (user_id K : Int)
    (resp : Response) (h : content_recommend vec rows user_id K = .ok resp)
    (e : RecEntry) (he : e ∈ resp.recommendations) :
    e.name ∈ rows.map combinedFeatures ∧ product_mapping rows e.name = some e.id :=
  content_recommend_recs_spec h e he

/-- Witness for C9: the entry returned for `rowsC` carries the feature
string "music rock" and its mapped product id 30. -/
theorem spec_c9_witness :
    content_recommend vecC rowsC 1 1 = .ok ⟨1, [⟨30, "music rock"⟩]⟩ ∧
    (("music rock" : String) ∈ rowsC.map combinedFeatures ∧
      product_mapping rowsC "music rock" = some 30) :=
  ⟨rfl, spec_c9_theorem vecC rowsC 1 1 ⟨1, [⟨30, "music rock"⟩]⟩ rfl
    ⟨30, "music rock"⟩ (by decide)⟩

/-- Claim C10: the feature-to-product mapping binds each combined-feature
string to the product id of the last row in feed order carrying that string
(the dict comprehension lets later rows overwrite earlier ones), and every
recommendation entry's product id is exactly that last-row product id for
its feature string. -/
theorem spec_c10_theorem (rows : List Row) (f : String) (vec : String → List ℚ)
    (user_id K : Int) (resp : Response)
    (h : content_recommend vec rows user_id K = .ok resp) :
    product_mapping rows f
      = ((rows.filter (fun r => decide (combinedFeatures r = f))).getLast?).map
          (fun r => r.product_id) ∧
    ∀ e ∈ resp.recommendations,
      some e.id
        = ((rows.filter (fun r => decide (combinedFeatures r = e.name))).getLast?).map
            (fun r => r.product_id) := by
  refine ⟨product_mapping_eq_getLast rows f, fun e he => ?_⟩
  obtain ⟨_, hid⟩ := content_recommend_recs_spec h e he
  rw [← hid, product_mapping_eq_getLast]

/-- Witness for C10: in `rowsDup` the rows with feature string "books scifi"
carry product ids 10 then 99; the mapping and the returned entry use 99, the
last one. -/
theorem spec_c10_witness :
    content_recommend vecC rowsDup 1 1 = .ok ⟨1, [⟨99, "books scifi"⟩]⟩ ∧
    product_mapping rowsDup "books scifi"
      = ((rowsDup.filter (fun r => decide (combinedFeatures r = "books scifi"))).getLast?).map
          (fun r => r.product_id) ∧
    some (99 : Int)
      = ((rowsDup.filter (fun r => decide (combinedFeatures r = "books scifi"))).getLast?).map
          (fun r => r.product_id) :=
  ⟨rfl,
    (spec_c10_theorem rowsDup "books scifi" vecC 1 1 ⟨1, [⟨99, "books scifi"⟩]⟩ rfl).1,
    (spec_c10_theorem rowsDup "books scifi" vecC 1 1 ⟨1, [⟨99, "books scifi"⟩]⟩ rfl).2
      ⟨99, "books scifi"⟩ (by decide)⟩

end RecSys
